import Mathlib

/-!
Verification development for the Ascende Eigent agent core (TypeScript sources:
`EigentSSEClient`, `EigentOrchestrator`, `ToolExecutor`, `buildEigentChatParams`,
`services/eigent/types.ts`).

The TypeScript code is shallowly embedded: strings are `String`/`List Char`,
JavaScript objects with string-valued fields are association lists, the
external world (filesystem, process spawning, HTTP) is passed in as explicit
oracle records, and the `async` control flow of the orchestrator is modelled as
a total function over an explicit list of stream items.  Each definition is
annotated with the source location it embeds.  Definitions come first, then all
theorems.
-/

namespace Ascende

/-- `SSEEvent` from `services/eigent/types.ts`: `{ step: AgentStep; data: Record<string, unknown> }`.
The payload is modelled as a string-keyed association list of string values
(the fields the orchestrator reads — `request_id`, `agent`, `message` — are strings). -/
structure SSEEvent where
  step : String
  data : List (String × String)
deriving DecidableEq, Repr

/-- `ToolResult` from `services/eigent/types.ts`:
`{ success: boolean; content?: string; error?: string }`. -/
structure ToolResult where
  success : Bool
  content : Option String
  error : Option String
deriving DecidableEq, Repr

/-! ## Stream framing (`EigentSSEClient.startChat`, body-read loop, part_002 lines 57–87)

The source keeps a text buffer, does `buffer += decoder.decode(value, {stream:true})`,
`const lines = buffer.split("\n\n"); buffer = lines.pop() ?? ""`, yields the
decode of every complete frame, and at stream end decodes the remaining buffer
if its trim is non-empty.  (`TextDecoder` in streaming mode makes byte-level
chunk boundaries equivalent to character-level ones, so chunks are modelled as
character lists.)  `splitFrames s` returns exactly (`lines` without its last
element, `lines.pop()`): the complete frames of `s` under JavaScript's
left-greedy split on the two-character delimiter `"\n\n"`, plus the retained
trailing fragment. -/

/-- Prepend a character to the first frame of a split result (or to the
retained fragment if no frame was produced). -/
def consFrame (c : Char) : List (List Char) × List Char → List (List Char) × List Char
  | ([], t) => ([], c :: t)
  | (p :: ps, t) => ((c :: p) :: ps, t)

/-- Left-greedy split of a character list on the `"\n\n"` delimiter, returning
(complete frames, trailing fragment).  Embeds
`buffer.split("\n\n")` followed by `buffer = lines.pop() ?? ""`. -/
def splitFrames : List Char → List (List Char) × List Char
  | [] => ([], [])
  | [c] => ([], [c])
  | c₁ :: c₂ :: rest =>
    if c₁ = '\n' ∧ c₂ = '\n' then
      let r := splitFrames rest
      ([] :: r.1, r.2)
    else
      consFrame c₁ (splitFrames (c₂ :: rest))

/-- The read loop of `startChat`: for each decoded chunk the buffer is extended,
split on `"\n\n"`, complete frames are collected in order, and the last
(possibly incomplete) piece is retained as the new buffer.  Returns (all
complete frames produced, final buffer). -/
def processChunks : List Char → List (List Char) → List (List Char) × List Char
  | buf, [] => ([], buf)
  | buf, c :: cs =>
    let r := splitFrames (buf ++ c)
    let rest := processChunks r.2 cs
    (r.1 ++ rest.1, rest.2)

/-- JavaScript whitespace test for the characters that can occur here; used to
model the `buffer.trim()` truthiness test at stream end. -/
def jsWhitespace (c : Char) : Bool :=
  c = ' ' || c = '\n' || c = '\r' || c = '\t' || c = '\x0b' || c = '\x0c'

/-- The event sequence produced by `EigentSSEClient.startChat`'s read loop
(part_002, lines 57–87) when the transport delivers `chunks`, with the
per-frame decoder (`parseSSEChunk`: the `data:`-line match plus `JSON.parse`)
abstracted as `decode`: every complete frame is decoded in order (`null`
results are skipped), and at stream end the remaining buffer is decoded as a
final frame when its trim is non-empty. -/
def streamEvents (decode : List Char → Option SSEEvent) (chunks : List (List Char)) :
    List SSEEvent :=
  let r := processChunks [] chunks
  let evs := r.1.filterMap decode
  if r.2.any (fun c => !jsWhitespace c) then evs ++ (decode r.2).toList else evs

/-! ## ChatParams and the request body (`types.ts`, `EigentSSEClient.toChatBody`) -/

/-- JSON value, used for the serialized request body of `POST /chat`. -/
inductive JVal where
  | s (v : String)
  | n (v : Int)
  | b (v : Bool)
  | arr (vs : List JVal)
  | obj (fields : List (String × JVal))

/-- `ChatParams` from `services/eigent/types.ts`.  Optional fields are `Option`;
`api_url?: string | null` and `env_path?: string | null` collapse `undefined`
and `null` into `none` (the source only tests them with `!= null`, which
identifies the two). -/
structure ChatParams where
  task_id : String
  project_id : String
  question : String
  email : String
  attaches : Option (List String)
  model_platform : String
  model_type : String
  api_key : String
  api_url : Option String
  language : Option String
  browser_port : Option Int
  max_retries : Option Int
  allow_local_system : Option Bool
  installed_mcp : Option JVal
  env_path : Option String
  file_save_path : Option String

/-- `EigentSSEClient.toChatBody` (part_002, lines 89–108): the JSON body sent by
`startChat`, as an ordered field list.  Defaults mirror the `??` fallbacks; the
`api_url` and `env_path` entries are appended only when the field is not
null/undefined.  (`file_save_path` does not appear in the source method.) -/
def toChatBody (p : ChatParams) : List (String × JVal) :=
  [("task_id", .s p.task_id),
   ("project_id", .s p.project_id),
   ("question", .s p.question),
   ("email", .s p.email),
   ("attaches", .arr ((p.attaches.getD []).map JVal.s)),
   ("model_platform", .s p.model_platform),
   ("model_type", .s p.model_type),
   ("api_key", .s p.api_key),
   ("language", .s (p.language.getD "en")),
   ("browser_port", .n (p.browser_port.getD 9222)),
   ("max_retries", .n (p.max_retries.getD 3)),
   ("allow_local_system", .b (p.allow_local_system.getD false)),
   ("installed_mcp", p.installed_mcp.getD (.obj [("mcpServers", .obj [])]))]
  ++ (match p.api_url with | some u => [("api_url", JVal.s u)] | none => [])
  ++ (match p.env_path with | some e => [("env_path", JVal.s e)] | none => [])

/-- The transport's view of the `fetch` response to `POST /chat`: `ok`/`status`/
`statusText`, the text read by `res.text()` on failure, and the body chunks
(`none` models a missing `res.body`). -/
structure HttpResponse where
  ok : Bool
  status : Nat
  statusText : String
  bodyText : String
  chunks : Option (List (List Char))

/-- `EigentSSEClient.startChat` (part_002, lines 45–87): returns the serialized
request body it POSTs and either a transport error (non-ok response, or missing
body) or the parsed event sequence. -/
def startChatModel (decode : List Char → Option SSEEvent) (resp : HttpResponse)
    (p : ChatParams) : List (String × JVal) × Except String (List SSEEvent) :=
  (toChatBody p,
    if resp.ok then
      match resp.chunks with
      | none => .error "Eigent startChat: no response body"
      | some cs => .ok (streamEvents decode cs)
    else
      .error ("Eigent startChat failed: " ++ toString resp.status ++ " "
        ++ resp.statusText ++ " - " ++ resp.bodyText))

/-! ## `buildEigentChatParams` (part_001) -/

/-- The slice of `ApiConfiguration` read by `getApiKey`/`getApiUrl`. -/
structure ApiConfiguration where
  apiProvider : Option String
  openRouterApiKey : Option String
  openAiApiKey : Option String
  apiKey : Option String
  openRouterBaseUrl : Option String
  openAiBaseUrl : Option String
deriving DecidableEq, Repr

/-- JavaScript truthiness of an optional string: present and non-empty. -/
def optTruthy : Option String → Bool
  | some s => !s.isEmpty
  | none => false

/-- `getApiKey` (part_001, lines 11–20): provider-specific key first, then
fallbacks, then `"not-provided"`. -/
def getApiKey (c : ApiConfiguration) : String :=
  if c.apiProvider == some "openrouter" && optTruthy c.openRouterApiKey then
    c.openRouterApiKey.getD ""
  else if c.apiProvider == some "openai" && optTruthy c.openAiApiKey then
    c.openAiApiKey.getD ""
  else if c.apiProvider == some "anthropic" && optTruthy c.apiKey then
    c.apiKey.getD ""
  else if optTruthy c.openAiApiKey then c.openAiApiKey.getD ""
  else if optTruthy c.openRouterApiKey then c.openRouterApiKey.getD ""
  else if optTruthy c.apiKey then c.apiKey.getD ""
  else "not-provided"

/-- `getApiUrl` (part_001, lines 22–30). -/
def getApiUrl (c : ApiConfiguration) : Option String :=
  if c.apiProvider == some "openrouter" && optTruthy c.openRouterBaseUrl then
    c.openRouterBaseUrl
  else if c.apiProvider == some "openai" && optTruthy c.openAiBaseUrl then
    c.openAiBaseUrl
  else none

/-- `buildEigentChatParams` (part_001, lines 35–66).  The effectful
collaborators are inputs: `uuid` is the value of `crypto.randomUUID()`,
`modelId` is `buildApiHandler(apiConfiguration).getModel().id`, and `wsDefault`
is `getWorkspacePath()`. -/
def buildEigentChatParams (uuid modelId wsDefault : String) (cfg : ApiConfiguration)
    (question : String) (images : Option (List String)) (workspacePath : Option String) :
    ChatParams :=
  let id := uuid
  let projectId := id
  let taskId := id
  { task_id := taskId
    project_id := projectId
    question := question
    email := "user@ascende.local"
    attaches := some (images.getD [])
    model_platform := "openai-compatible-model"
    model_type := modelId
    api_key := getApiKey cfg
    api_url := getApiUrl cfg
    language := some "en"
    browser_port := some 9222
    max_retries := some 3
    allow_local_system := some true
    installed_mcp := some (.obj [("mcpServers", .obj [])])
    env_path := none
    file_save_path := some (workspacePath.getD wsDefault) }

/-! ## JavaScript `String.prototype.split` / `Array.prototype.join` with an
arbitrary separator (used by `ToolExecutor.executeSearchReplace`:
`content.split(data.old_string).join(data.new_string)`). -/

/-- Left-greedy split on an arbitrary non-empty separator (the non-empty case
of JavaScript `s.split(sep)`), written with a structural fuel parameter so
that it evaluates by kernel reduction.  Each step consumes at least one
character, so any `fuel ≥ s.length` produces the split; when the fuel runs
out the input is necessarily `[]` and `[s]` is the correct answer. -/
def splitGoFuel (sep : List Char) : Nat → List Char → List (List Char)
  | 0, s => [s]
  | fuel + 1, s =>
    if sep ≠ [] ∧ sep.isPrefixOf s then
      [] :: splitGoFuel sep fuel (s.drop sep.length)
    else
      match s with
      | [] => [[]]
      | c :: r =>
        match splitGoFuel sep fuel r with
        | [] => [[c]]
        | p :: ps => (c :: p) :: ps

/-- Left-greedy split on an arbitrary non-empty separator. -/
def splitGo (sep s : List Char) : List (List Char) :=
  splitGoFuel sep s.length s

/-- JavaScript `s.split(sep)`: the empty separator splits into single
characters, otherwise a left-greedy split on the separator. -/
def jsSplit (sep s : List Char) : List (List Char) :=
  if sep = [] then s.map (fun c => [c]) else splitGo sep s

/-- JavaScript `parts.join(sep)`. -/
def joinWith (sep : List Char) : List (List Char) → List Char
  | [] => []
  | [p] => p
  | p :: q :: ps => p ++ sep ++ joinWith sep (q :: ps)

/-- Whether `sep` occurs as a contiguous subsequence of `s` (at any position). -/
def occursIn (sep : List Char) : List Char → Bool
  | [] => sep.isEmpty
  | c :: r => sep.isPrefixOf (c :: r) || occursIn sep r

/-- `content.split(old).join(new)` from `executeSearchReplace`: literal
replacement of every occurrence of `old` by `new`. -/
def replaceAllJS (old new s : String) : String :=
  String.mk (joinWith new.data (jsSplit old.data s.data))

/-! ## ToolExecutor (`src/core/eigent/ToolExecutor.ts`)

Every operation is wrapped in `try/catch`; the external effects
(`vscode.workspace.fs`, `vscode.workspace.findFiles`, the `listFiles` service,
`execa`) are oracles that either succeed or fail with a message (the caught
exception's `.message`).  Each operation returns its `ToolResult` together with
the list of `writeFile` invocations it performed (path, content) — the write
trace observes the frame condition "no write occurs". -/

/-- `execute_*` event payloads from `services/eigent/types.ts`. -/
structure ExecuteFileWriteData where
  request_id : String
  path : String
  content : String

/-- `ExecuteReadFileData` from `services/eigent/types.ts`. -/
structure ExecuteReadFileData where
  request_id : String
  path : String

/-- `ExecuteSearchReplaceData` from `services/eigent/types.ts`. -/
structure ExecuteSearchReplaceData where
  request_id : String
  path : String
  old_string : String
  new_string : String

/-- `ExecuteListFilesData` from `services/eigent/types.ts`. -/
structure ExecuteListFilesData where
  request_id : String
  pattern : String

/-- `ExecuteTerminalData` from `services/eigent/types.ts`. -/
structure ExecuteTerminalData where
  request_id : String
  command : String
  cwd : Option String

/-- Resolved value of a non-throwing `execa` call. -/
structure ExecaSuccess where
  exitCode : Int
  all : Option String
  stdout : Option String
  stderr : Option String

/-- Thrown value of a failing `execa` call (`catch (e)`): the captured partial
streams, plus `e.message` (`e instanceof Error ? e.message : String(e)`). -/
structure ExecaFailure where
  all : Option String
  stdout : Option String
  stderr : Option String
  message : String

/-- The external world visible to `ToolExecutor`. -/
structure ExecEnv where
  readFile : String → Except String String
  writeFile : String → String → Except String Unit
  workspaceFolder : Option String
  findFiles : String → String → Except String (List String)
  listFilesSvc : String → Except String (List String × Bool)
  execa : String → String → Except ExecaFailure ExecaSuccess

/-- `path.isAbsolute`, for the POSIX paths used here: the path starts with `/`. -/
def isAbsolutePath (p : String) : Bool :=
  match p.data with
  | '/' :: _ => true
  | _ => false

/-- `ToolExecutor.resolvePath`: a relative path is resolved against the
workspace root (`path.resolve(workspacePath, relPath)`, modelled as path
join), an absolute path is used as-is. -/
def resolvePath (ws p : String) : String :=
  if isAbsolutePath p then p else ws ++ "/" ++ p

/-- `path.relative(workspacePath, fsPath)`, modelled as stripping the
workspace-root segment when present. -/
def pathRelative (ws p : String) : String :=
  if (ws ++ "/").data.isPrefixOf p.data then String.mk (p.data.drop (ws.length + 1)) else p

/-- `ToolExecutor.executeFileWrite` (ToolExecutor.ts, lines 28–38). -/
def executeFileWrite (env : ExecEnv) (ws : String) (d : ExecuteFileWriteData) :
    ToolResult × List (String × String) :=
  let fullPath := resolvePath ws d.path
  match env.writeFile fullPath d.content with
  | .ok _ =>
    (⟨true, some ("Written to " ++ d.path), none⟩, [(fullPath, d.content)])
  | .error e => (⟨false, none, some e⟩, [(fullPath, d.content)])

/-- `ToolExecutor.executeReadFile` (ToolExecutor.ts, lines 40–50). -/
def executeReadFile (env : ExecEnv) (ws : String) (d : ExecuteReadFileData) :
    ToolResult × List (String × String) :=
  let fullPath := resolvePath ws d.path
  match env.readFile fullPath with
  | .ok content => (⟨true, some content, none⟩, [])
  | .error e => (⟨false, none, some e⟩, [])

/-- `ToolExecutor.executeSearchReplace` (ToolExecutor.ts, lines 52–67): read,
replace every literal occurrence via `split(old).join(new)`, and write back
only when the content changed. -/
def executeSearchReplace (env : ExecEnv) (ws : String) (d : ExecuteSearchReplaceData) :
    ToolResult × List (String × String) :=
  let fullPath := resolvePath ws d.path
  match env.readFile fullPath with
  | .error e => (⟨false, none, some e⟩, [])
  | .ok content =>
    let newContent := replaceAllJS d.old_string d.new_string content
    if content = newContent then
      (⟨true, some "No changes needed (old_string not found)", none⟩, [])
    else
      match env.writeFile fullPath newContent with
      | .ok _ => (⟨true, some "Search and replace completed", none⟩, [(fullPath, newContent)])
      | .error e => (⟨false, none, some e⟩, [(fullPath, newContent)])

/-- `ToolExecutor.executeListFiles` (ToolExecutor.ts, lines 69–94): glob
patterns go through `vscode.workspace.findFiles` against the first workspace
folder (absent folder is a failure); wildcard-free patterns are treated as a
directory and recursively listed, with a truncation marker when the 200-entry
cap was hit. -/
def executeListFiles (env : ExecEnv) (ws : String) (d : ExecuteListFilesData) :
    ToolResult × List (String × String) :=
  let pattern := if d.pattern.isEmpty then "**/*" else d.pattern
  let isGlob := pattern.data.contains '*' || pattern.data.contains '?'
  if isGlob then
    match env.workspaceFolder with
    | none => (⟨false, none, some "No workspace folder"⟩, [])
    | some wf =>
      match env.findFiles wf pattern with
      | .ok uris =>
        (⟨true, some (String.intercalate "\n" (uris.map (pathRelative ws))), none⟩, [])
      | .error e => (⟨false, none, some e⟩, [])
  else
    match env.listFilesSvc (resolvePath ws pattern) with
    | .ok (files, didHitLimit) =>
      let relativePaths :=
        files.map (pathRelative ws) ++ (if didHitLimit then ["(... limit reached)"] else [])
      (⟨true, some (String.intercalate "\n" relativePaths), none⟩, [])
    | .error e => (⟨false, none, some e⟩, [])

/-- `ToolExecutor.executeTerminal` (ToolExecutor.ts, lines 96–110): run the
command through a shell in the resolved working directory; on a thrown failure
the captured output (or the failure message) is returned as both `content` and
`error`. -/
def executeTerminal (env : ExecEnv) (ws : String) (d : ExecuteTerminalData) :
    ToolResult × List (String × String) :=
  let cwd := match d.cwd with
    | some c => if c.isEmpty then ws else resolvePath ws c
    | none => ws
  match env.execa d.command cwd with
  | .ok result =>
    let output := result.all.getD (result.stdout.getD (result.stderr.getD ""))
    (⟨result.exitCode == 0, some output, none⟩, [])
  | .error err =>
    let output := err.all.getD (err.stdout.getD (err.stderr.getD err.message))
    (⟨false, some output, some output⟩, [])

/-! ## Orchestrator (`EigentOrchestrator`, part_000)

The orchestrator's session fields are `OrchState`; every external interaction
(postMessage to the webview, EventEmitter emits, Stream Client control calls,
ToolExecutor invocations) is recorded in an `OrchCall` trace in program order.
The cooperative-concurrency surface is explicit: the consumed stream is a list
of `StreamItem`s, where `abortSignal` is an `abortTask()` arriving between
events (at a network-read suspension), `streamError` is the stream throwing,
and each `ask` event carries how its human-reply wait is resolved
(`submitHumanReply(reply)` or an `abortTask()` during the wait). -/

/-- Session state of `EigentOrchestrator` (part_000, lines 41–49). -/
structure OrchState where
  projectId : String
  taskId : String
  aborted : Bool
  pendingAgent : Option String
  hasClient : Bool
deriving DecidableEq, Repr

/-- `get isRunning()` (part_000, lines 55–57): `!!this.projectId && !this.aborted`. -/
def isRunning (s : OrchState) : Bool :=
  !s.projectId.isEmpty && !s.aborted

/-- How an `ask` event's pending human-reply wait is resolved. -/
inductive AskResolution where
  | user (reply : String)
  | abortResolve
deriving DecidableEq, Repr

/-- One step of the consumed stream, with the abort interleaving made explicit. -/
inductive StreamItem where
  | ev (e : SSEEvent) (res : AskResolution)
  | abortSignal
  | streamError (msg : String)
deriving DecidableEq, Repr

/-- Observable external actions of the orchestrator, in program order. -/
inductive OrchCall where
  | postEvent (step : String) (data : List (String × String))
  | postError (msg : String)
  | emitStarted
  | emitCompleted (taskId : String)
  | emitAborted
  | callHumanReply (projectId agent reply : String)
  | callToolExec (tool : String) (data : List (String × String))
  | callToolResult (projectId requestId tool : String) (result : ToolResult)
  | callStopChat (projectId : String)
deriving DecidableEq, Repr

/-- `["end", "error", "timeout"].includes(event.step)` (part_000, line 92). -/
def isTerminalStep (s : String) : Bool :=
  s == "end" || s == "error" || s == "timeout"

/-- The five client-delegated execution steps (part_000, lines 146–160). -/
def isExecuteStep (s : String) : Bool :=
  s == "execute_file_write" || s == "execute_read_file" || s == "execute_search_replace"
    || s == "execute_list_files" || s == "execute_terminal"

/-- JavaScript property access `data.key` on the event payload. -/
def lookupData (d : List (String × String)) (k : String) : Option String :=
  List.lookup k d

/-- The stop-notification part of `abortTask` (part_000, lines 119–121):
best-effort `stopChat` when a session and client exist (its failure is
swallowed by `.catch(() => {})`). -/
def abortCalls (s : OrchState) : List OrchCall :=
  if !s.projectId.isEmpty && s.hasClient then [.callStopChat s.projectId] else []

/-- `EigentOrchestrator.executeAndPostResult` (part_000, lines 171–194): drop
the event when the payload lacks a usable `request_id` or no active session
exists; otherwise run the matching executor operation and post the result.
The concrete ToolExecutor outcome is the oracle `exec`. -/
def executeAndPostResult (exec : String → List (String × String) → ToolResult)
    (s : OrchState) (toolName : String) (data : List (String × String)) : List OrchCall :=
  match lookupData data "request_id" with
  | none => []
  | some requestId =>
    if requestId.isEmpty || !s.hasClient || s.projectId.isEmpty then []
    else if isExecuteStep toolName then
      [.callToolExec toolName data,
        .callToolResult s.projectId requestId toolName (exec toolName data)]
    else []

/-- `EigentOrchestrator.handleEvent` (part_000, lines 125–162): forward the
event to the webview, then dispatch on `step`.  For `ask`, the wait is
registered and then resolved per `res`: `submitHumanReply` clears the slot and
the handler sends the reply only when it is non-empty and a session exists;
`abortTask` during the wait sets the aborted flag, resolves the wait with
`""` (so no human-reply call is made), clears the slot, issues the best-effort
stop call and emits `taskAborted`. -/
def handleEvent (exec : String → List (String × String) → ToolResult)
    (s : OrchState) (e : SSEEvent) (res : AskResolution) : OrchState × List OrchCall :=
  let fwd : List OrchCall := [.postEvent e.step e.data]
  if e.step == "ask" then
    let agent := (lookupData e.data "agent").getD ""
    match res with
    | .user reply =>
      let s' := { s with pendingAgent := none }
      if !reply.isEmpty && s.hasClient && !s.projectId.isEmpty then
        (s', fwd ++ [.callHumanReply s.projectId agent reply])
      else (s', fwd)
    | .abortResolve =>
      let s' := { s with aborted := true, pendingAgent := none }
      (s', fwd ++ abortCalls s ++ [.emitAborted])
  else if isExecuteStep e.step then
    (s, fwd ++ executeAndPostResult exec s e.step e.data)
  else
    (s, fwd)

/-- Outcome of the `for await` loop: normal exit (exhaustion or `break`) or a
thrown stream failure. -/
inductive LoopOutcome where
  | normal
  | errored (msg : String)
deriving DecidableEq, Repr

/-- Result of running the dispatch loop. -/
structure LoopResult where
  state : OrchState
  calls : List OrchCall
  outcome : LoopOutcome

/-- The `for await` dispatch loop of `startTask` (part_000, lines 88–93):
check the aborted flag, handle the event, and break after the first terminal
step; an `abortTask` arriving between events runs its body (flag, slot clear,
best-effort stop, `taskAborted` emit); a stream failure ends the loop
exceptionally. -/
def dispatchLoop (exec : String → List (String × String) → ToolResult) :
    OrchState → List StreamItem → LoopResult
  | s, [] => ⟨s, [], .normal⟩
  | s, .abortSignal :: rest =>
    let s' := { s with aborted := true, pendingAgent := none }
    let r := dispatchLoop exec s' rest
    ⟨r.state, abortCalls s ++ [.emitAborted] ++ r.calls, r.outcome⟩
  | s, .streamError msg :: _ => ⟨s, [], .errored msg⟩
  | s, .ev e res :: rest =>
    if s.aborted then ⟨s, [], .normal⟩
    else
      let h := handleEvent exec s e res
      if isTerminalStep e.step then ⟨h.1, h.2, .normal⟩
      else
        let r := dispatchLoop exec h.1 rest
        ⟨r.state, h.2 ++ r.calls, r.outcome⟩

/-- `EigentOrchestrator.startTask` (part_000, lines 73–108): initialize the
session from the built `ChatParams`, emit `taskStarted`, run the dispatch
loop, then: on normal exit emit `taskCompleted` with the task identifier; on a
stream failure post a synthesized error event (only when not aborted) and emit
`taskAborted`; in the `finally`, clear the project/task identifiers. -/
def runStartTask (exec : String → List (String × String) → ToolResult)
    (params : ChatParams) (items : List StreamItem) : OrchState × List OrchCall :=
  let s0 : OrchState :=
    { projectId := params.project_id, taskId := params.task_id,
      aborted := false, pendingAgent := none, hasClient := true }
  let r := dispatchLoop exec s0 items
  let tailCalls : List OrchCall :=
    match r.outcome with
    | .normal => [.emitCompleted r.state.taskId]
    | .errored msg =>
      (if !r.state.aborted then [.postError msg] else []) ++ [.emitAborted]
  ({ r.state with projectId := "", taskId := "" },
    [.emitStarted] ++ r.calls ++ tailCalls)

/-- The events forwarded to the webview observer (`postMessage` of a stream
event) occurring in a call trace, in order. -/
def forwardedEvents (calls : List OrchCall) : List SSEEvent :=
  calls.filterMap fun c =>
    match c with
    | .postEvent st d => some ⟨st, d⟩
    | _ => none

/-- The raw event sequence carried by a stream-item list. -/
def eventsOf (items : List StreamItem) : List SSEEvent :=
  items.filterMap fun i =>
    match i with
    | .ev e _ => some e
    | _ => none

/-- The prefix of an event sequence up to and including its first terminal
event (the whole sequence if none is terminal). -/
def truncAtTerminal : List SSEEvent → List SSEEvent
  | [] => []
  | e :: es => if isTerminalStep e.step then [e] else e :: truncAtTerminal es

/-- Terminal lifecycle signals (`taskCompleted` / `taskAborted` emits). -/
def isTerminalSignal : OrchCall → Bool
  | .emitCompleted _ => true
  | .emitAborted => true
  | _ => false

/-- Number of terminal lifecycle signals in a trace. -/
def countTerminalSignals (calls : List OrchCall) : Nat :=
  calls.countP fun c => isTerminalSignal c

/-- Whether a stream-item list contains no `abortTask` invocation (neither
between events nor resolving a pending wait). -/
def noAbortItems (items : List StreamItem) : Bool :=
  items.all fun i =>
    match i with
    | .abortSignal => false
    | .ev _ .abortResolve => false
    | _ => true

/-- Whether a stream-item list contains no stream failure. -/
def noStreamError (items : List StreamItem) : Bool :=
  items.all fun i =>
    match i with
    | .streamError _ => false
    | _ => true

/-- The human-reply control calls occurring in a trace. -/
def humanReplyCalls (calls : List OrchCall) : List OrchCall :=
  calls.filter fun c =>
    match c with
    | .callHumanReply _ _ _ => true
    | _ => false

/-! ## Concrete fixtures used by witnesses and counterexamples -/

/-- A ToolExecutor oracle that always succeeds. -/
def execTrue : String → List (String × String) → ToolResult :=
  fun _ _ => ⟨true, none, none⟩

/-- A concrete `ChatParams` as produced by `buildEigentChatParams` for a
workspace at `/w`. -/
def paramsEx : ChatParams :=
  { task_id := "t1", project_id := "p1", question := "q", email := "user@ascende.local",
    attaches := some [], model_platform := "openai-compatible-model", model_type := "gpt-4",
    api_key := "sk-x", api_url := none, language := some "en", browser_port := some 9222,
    max_retries := some 3, allow_local_system := some true,
    installed_mcp := some (.obj [("mcpServers", .obj [])]), env_path := none,
    file_save_path := some "/w" }

/-- An external world in which every primitive operation fails with `"boom"`. -/
def envFail : ExecEnv :=
  { readFile := fun _ => .error "boom"
    writeFile := fun _ _ => .error "boom"
    workspaceFolder := none
    findFiles := fun _ _ => .error "boom"
    listFilesSvc := fun _ => .error "boom"
    execa := fun _ _ => .error ⟨none, none, none, "boom"⟩ }

/-- An external world whose every file reads as `"abc"` and where writes succeed. -/
def envAbc : ExecEnv :=
  { readFile := fun _ => .ok "abc"
    writeFile := fun _ _ => .ok ()
    workspaceFolder := none
    findFiles := fun _ _ => .ok []
    listFilesSvc := fun _ => .ok ([], false)
    execa := fun _ _ => .ok ⟨0, none, none, none⟩ }

/-! ## Theorems: stream framing -/

/-- If the split produced no complete frame, the retained fragment is the whole input. -/
theorem splitFrames_frames_nil : ∀ (s : List Char),
    (splitFrames s).1 = [] → (splitFrames s).2 = s
  | [], _ => rfl
  | [_], _ => rfl
  | c₁ :: c₂ :: rest, h => by
    by_cases hd : c₁ = '\n' ∧ c₂ = '\n'
    · simp [splitFrames, hd] at h
    · have ih := splitFrames_frames_nil (c₂ :: rest)
      rcases he : splitFrames (c₂ :: rest) with ⟨f, t⟩
      rw [he] at ih
      simp only [splitFrames, if_neg hd, he] at h ⊢
      cases f with
      | nil =>
        have ht : t = c₂ :: rest := ih rfl
        simp [consFrame, ht]
      | cons p ps => simp [consFrame] at h

/-- The retained fragment contains no delimiter: re-splitting it yields no frame. -/
theorem splitFrames_tail_nil : ∀ (s : List Char),
    (splitFrames ((splitFrames s).2)).1 = []
  | [] => rfl
  | [_] => rfl
  | c₁ :: c₂ :: rest => by
    by_cases hd : c₁ = '\n' ∧ c₂ = '\n'
    · have ih := splitFrames_tail_nil rest
      simpa [splitFrames, hd] using ih
    · have ih := splitFrames_tail_nil (c₂ :: rest)
      rcases he : splitFrames (c₂ :: rest) with ⟨f, t⟩
      rw [he] at ih
      simp only [splitFrames, if_neg hd, he]
      cases f with
      | nil =>
        have ht : t = c₂ :: rest := by
          have := splitFrames_frames_nil (c₂ :: rest)
          rw [he] at this; exact this rfl
        simp only [consFrame, ht]
        simp [splitFrames, if_neg hd, he, consFrame]
      | cons p ps => simpa [consFrame] using ih

/-- Appending more input only extends the split: the frames of `a ++ b` are the
frames of `a` followed by the frames of the retained fragment of `a` glued to `b`.
This is the heart of chunk-boundary invariance. -/
theorem splitFrames_append : ∀ (a b : List Char),
    splitFrames (a ++ b) =
      ((splitFrames a).1 ++ (splitFrames ((splitFrames a).2 ++ b)).1,
        (splitFrames ((splitFrames a).2 ++ b)).2)
  | [], b => by simp [splitFrames]
  | [c], b => by simp [splitFrames]
  | c₁ :: c₂ :: rest, b => by
    by_cases hd : c₁ = '\n' ∧ c₂ = '\n'
    · have ih := splitFrames_append rest b
      simp [splitFrames, hd, ih]
    · have ih := splitFrames_append (c₂ :: rest) b
      rcases he : splitFrames (c₂ :: rest) with ⟨f, t⟩
      rw [he] at ih
      cases f with
      | nil =>
        have ht : t = c₂ :: rest := by
          have := splitFrames_frames_nil (c₂ :: rest)
          rw [he] at this; exact this rfl
        subst ht
        simp [splitFrames, if_neg hd, he, consFrame]
      | cons p ps =>
        simp only [List.cons_append, List.append_eq, splitFrames, if_neg hd, he, consFrame]
          at ih ⊢
        rw [ih]

/-- Feeding chunks one by one through the buffer produces exactly the split of
their concatenation, provided the starting buffer is frame-free (as the empty
initial buffer and every retained fragment are). -/
theorem processChunks_eq : ∀ (chunks : List (List Char)) (buf : List Char),
    (splitFrames buf).1 = [] →
    processChunks buf chunks = splitFrames (buf ++ chunks.flatten)
  | [], buf, h => by
    have ht := splitFrames_frames_nil buf h
    simp [processChunks]
    rcases hs : splitFrames buf with ⟨f, t⟩
    rw [hs] at h ht
    simp at h ht
    simp [h, ht]
  | c :: cs, buf, h => by
    have ih := processChunks_eq cs (splitFrames (buf ++ c)).2 (splitFrames_tail_nil _)
    have happ := splitFrames_append (buf ++ c) cs.flatten
    simp only [processChunks, ih, List.flatten_cons]
    rw [← List.append_assoc, happ]

/-! ## Theorems: JavaScript split/join with an arbitrary separator -/

/-- A boolean-prefix decomposes the list: `l ++ drop |l| s = s`. -/
theorem isPrefixOf_append_drop : ∀ (l s : List Char),
    l.isPrefixOf s = true → l ++ s.drop l.length = s
  | [], s, _ => by simp
  | a :: l, [], h => by simp [List.isPrefixOf] at h
  | a :: l, b :: s, h => by
    simp only [List.isPrefixOf, Bool.and_eq_true, beq_iff_eq] at h
    obtain ⟨hab, hp⟩ := h
    have ih := isPrefixOf_append_drop l s hp
    simp [hab, ih]

/-- A boolean-prefix of `x` is a boolean-prefix of `x ++ y`. -/
theorem isPrefixOf_append_right : ∀ (l x : List Char) (y : List Char),
    l.isPrefixOf x = true → l.isPrefixOf (x ++ y) = true
  | [], _, _, _ => by simp [List.isPrefixOf]
  | a :: l, [], y, h => by simp [List.isPrefixOf] at h
  | a :: l, b :: x, y, h => by
    simp only [List.isPrefixOf, Bool.and_eq_true, beq_iff_eq] at h
    obtain ⟨hab, hp⟩ := h
    have ih := isPrefixOf_append_right l x y hp
    simp [List.isPrefixOf, hab, ih]

/-- Soundness of the left-greedy split, by induction on the fuel: joining the
parts with the separator recovers the input, no part contains an occurrence of
the separator, and the first part is a prefix of the input. -/
theorem splitGoFuel_spec (sep : List Char) (hsep : sep ≠ []) :
    ∀ (fuel : Nat) (s : List Char), s.length ≤ fuel →
    joinWith sep (splitGoFuel sep fuel s) = s ∧
    (∀ p ∈ splitGoFuel sep fuel s, occursIn sep p = false) ∧
    (∃ p ps t, splitGoFuel sep fuel s = p :: ps ∧ p ++ t = s)
  | 0, s, hlen => by
    have hs : s = [] := List.length_eq_zero.mp (Nat.le_zero.mp hlen)
    subst hs
    refine ⟨rfl, ?_, [], [], [], rfl, rfl⟩
    intro p hp
    simp [splitGoFuel] at hp
    simp [hp, occursIn, List.isEmpty_iff, hsep]
  | fuel + 1, s, hlen => by
    by_cases h : sep ≠ [] ∧ sep.isPrefixOf s
    · have hplen : sep.length ≤ s.length := by
        have hpre2 := List.isPrefixOf_iff_prefix.mp h.2
        exact hpre2.length_le
      have hslen : 0 < sep.length := List.length_pos.mpr h.1
      have hdrop : (s.drop sep.length).length ≤ fuel := by
        simp only [List.length_drop]
        omega
      have ih := splitGoFuel_spec sep hsep fuel (s.drop sep.length) hdrop
      obtain ⟨ih1, ih2, p', ps', t', hsplit, -⟩ := ih
      have hu : splitGoFuel sep (fuel + 1) s =
          [] :: splitGoFuel sep fuel (s.drop sep.length) := by
        simp only [splitGoFuel]
        rw [if_pos h]
      rw [hu]
      refine ⟨?_, ?_, [], splitGoFuel sep fuel (s.drop sep.length), s, rfl, by simp⟩
      · rw [hsplit] at ih1 ⊢
        show joinWith sep ([] :: p' :: ps') = s
        have hj : joinWith sep ([] :: p' :: ps') = [] ++ sep ++ joinWith sep (p' :: ps') := rfl
        rw [hj, ih1]
        simpa using isPrefixOf_append_drop sep s h.2
      · intro p hp
        rcases List.mem_cons.mp hp with rfl | hp'
        · simp [occursIn, List.isEmpty_iff, hsep]
        · exact ih2 p hp'
    · have hnp : sep.isPrefixOf s = false := by
        cases hb : sep.isPrefixOf s
        · rfl
        · exact absurd ⟨hsep, hb⟩ h
      cases s with
      | nil =>
        have hu : splitGoFuel sep (fuel + 1) [] = [[]] := by
          simp only [splitGoFuel]
          rw [if_neg h]
        rw [hu]
        refine ⟨rfl, ?_, [], [], [], rfl, rfl⟩
        intro p hp
        simp at hp
        simp [hp, occursIn, List.isEmpty_iff, hsep]
      | cons c r =>
        have hrlen : r.length ≤ fuel := by
          simp only [List.length_cons] at hlen
          omega
        have ih := splitGoFuel_spec sep hsep fuel r hrlen
        obtain ⟨ih1, ih2, p, ps, t, hsplit, happ⟩ := ih
        have hu : splitGoFuel sep (fuel + 1) (c :: r) = (c :: p) :: ps := by
          simp only [splitGoFuel]
          rw [if_neg h]
          simp only [hsplit]
        rw [hu]
        have hmemp : occursIn sep p = false :=
          ih2 p (by rw [hsplit]; exact List.mem_cons_self _ _)
        refine ⟨?_, ?_, c :: p, ps, t, rfl, by simpa using happ⟩
        · rw [hsplit] at ih1
          cases ps with
          | nil =>
            show (c :: p) = c :: r
            have h1 : joinWith sep [p] = p := rfl
            rw [h1] at ih1
            rw [ih1]
          | cons q qs =>
            show (c :: p) ++ sep ++ joinWith sep (q :: qs) = c :: r
            have h1 : joinWith sep (p :: q :: qs) = p ++ sep ++ joinWith sep (q :: qs) := rfl
            rw [h1] at ih1
            simp only [List.cons_append, List.append_assoc] at ih1 ⊢
            rw [ih1]
        · intro x hx
          rcases List.mem_cons.mp hx with rfl | hx'
          · show occursIn sep (c :: p) = false
            have hpre : sep.isPrefixOf (c :: p) = false := by
              cases hb : sep.isPrefixOf (c :: p)
              · rfl
              · exfalso
                have hmono : sep.isPrefixOf ((c :: p) ++ t) = true :=
                  isPrefixOf_append_right sep (c :: p) t hb
                rw [show (c :: p) ++ t = c :: (p ++ t) from rfl, happ] at hmono
                rw [hmono] at hnp
                exact Bool.true_eq_false.mp hnp
            simp [occursIn, hpre, hmemp]
          · exact ih2 x (by rw [hsplit]; exact List.mem_cons_of_mem _ hx')

/-- Soundness of `splitGo` (the fuel used by `splitGo` is always sufficient). -/
theorem splitGo_spec (sep : List Char) (hsep : sep ≠ []) (s : List Char) :
    joinWith sep (splitGo sep s) = s ∧
    (∀ p ∈ splitGo sep s, occursIn sep p = false) ∧
    (∃ p ps t, splitGo sep s = p :: ps ∧ p ++ t = s) :=
  splitGoFuel_spec sep hsep s.length s (Nat.le_refl _)

/-! ## Theorems: orchestrator trace structure -/

theorem forwardedEvents_append (a b : List OrchCall) :
    forwardedEvents (a ++ b) = forwardedEvents a ++ forwardedEvents b := by
  unfold forwardedEvents
  rw [List.filterMap_append]

theorem forwardedEvents_abortCalls (s : OrchState) :
    forwardedEvents (abortCalls s) = [] := by
  unfold abortCalls
  split <;> simp [forwardedEvents]

theorem forwardedEvents_executeAndPostResult
    (exec : String → List (String × String) → ToolResult) (s : OrchState)
    (toolName : String) (data : List (String × String)) :
    forwardedEvents (executeAndPostResult exec s toolName data) = [] := by
  unfold executeAndPostResult
  cases lookupData data "request_id" with
  | none => rfl
  | some rid =>
    dsimp only
    split
    · rfl
    · split <;> simp [forwardedEvents]

/-- `handleEvent` forwards exactly its event to the observer. -/
theorem handleEvent_forwarded (exec : String → List (String × String) → ToolResult)
    (s : OrchState) (e : SSEEvent) (res : AskResolution) :
    forwardedEvents (handleEvent exec s e res).2 = [e] := by
  cases res with
  | user reply =>
    unfold handleEvent
    cases hb : e.step == "ask" with
    | true =>
      simp only [hb, if_true]
      split <;> simp [forwardedEvents]
    | false =>
      simp only [hb, Bool.false_eq_true, if_false]
      split
      · rw [forwardedEvents_append, forwardedEvents_executeAndPostResult]
        simp [forwardedEvents]
      · simp [forwardedEvents]
  | abortResolve =>
    unfold handleEvent
    cases hb : e.step == "ask" with
    | true =>
      simp only [hb, if_true]
      rw [show ([OrchCall.postEvent e.step e.data] ++ abortCalls s ++ [OrchCall.emitAborted])
            = [OrchCall.postEvent e.step e.data] ++ (abortCalls s ++ [OrchCall.emitAborted])
          from by simp]
      rw [forwardedEvents_append, forwardedEvents_append, forwardedEvents_abortCalls]
      simp [forwardedEvents]
    | false =>
      simp only [hb, Bool.false_eq_true, if_false]
      split
      · rw [forwardedEvents_append, forwardedEvents_executeAndPostResult]
        simp [forwardedEvents]
      · simp [forwardedEvents]

/-- The forwarded events of the dispatch loop form a prefix of the raw event
sequence truncated at its first terminal event. -/
theorem dispatchLoop_forwarded_prefix (exec : String → List (String × String) → ToolResult) :
    ∀ (items : List StreamItem) (s : OrchState),
    forwardedEvents (dispatchLoop exec s items).calls <+: truncAtTerminal (eventsOf items)
  | [], s => by simp [dispatchLoop, forwardedEvents, eventsOf, truncAtTerminal]
  | .abortSignal :: rest, s => by
    have ih := dispatchLoop_forwarded_prefix exec rest
      { s with aborted := true, pendingAgent := none }
    simp only [dispatchLoop]
    rw [forwardedEvents_append, forwardedEvents_append, forwardedEvents_abortCalls]
    simpa [forwardedEvents, eventsOf] using ih
  | .streamError msg :: rest, s => by
    simp only [dispatchLoop]
    exact List.nil_prefix
  | .ev e res :: rest, s => by
    simp only [dispatchLoop]
    by_cases hab : s.aborted = true
    · simp only [hab, if_true]
      exact List.nil_prefix
    · have ih := dispatchLoop_forwarded_prefix exec rest (handleEvent exec s e res).1
      simp only [Bool.not_eq_true] at hab
      simp only [hab, Bool.false_eq_true, if_false]
      have hev : eventsOf (.ev e res :: rest) = e :: eventsOf rest := by
        simp [eventsOf]
      rw [hev]
      by_cases ht : isTerminalStep e.step = true
      · simp only [ht, if_true, truncAtTerminal, handleEvent_forwarded]
        exact List.prefix_refl _
      · simp only [ht, Bool.false_eq_true, if_false, truncAtTerminal]
        rw [forwardedEvents_append, handleEvent_forwarded]
        exact List.cons_prefix_cons.mpr ⟨rfl, ih⟩

/-- `handleEvent` with a user-resolved reply leaves the aborted flag unchanged. -/
theorem handleEvent_user_aborted (exec : String → List (String × String) → ToolResult)
    (s : OrchState) (e : SSEEvent) (reply : String) :
    (handleEvent exec s e (.user reply)).1.aborted = s.aborted := by
  unfold handleEvent
  cases hb : e.step == "ask" with
  | true =>
    simp only [hb, if_true]
    split <;> rfl
  | false =>
    simp only [hb, Bool.false_eq_true, if_false]
    split <;> rfl

/-- With no abort and no stream error, the dispatch loop forwards exactly the
event sequence truncated at its first terminal event. -/
theorem dispatchLoop_forwarded_eq (exec : String → List (String × String) → ToolResult) :
    ∀ (items : List StreamItem) (s : OrchState), s.aborted = false →
    noAbortItems items = true → noStreamError items = true →
    forwardedEvents (dispatchLoop exec s items).calls = truncAtTerminal (eventsOf items)
  | [], s, _, _, _ => by simp [dispatchLoop, forwardedEvents, eventsOf, truncAtTerminal]
  | .abortSignal :: rest, s, _, hna, _ => by simp [noAbortItems] at hna
  | .streamError msg :: rest, s, _, _, hne => by simp [noStreamError] at hne
  | .ev e res :: rest, s, hab, hna, hne => by
    cases res with
    | abortResolve => simp [noAbortItems] at hna
    | user reply =>
      have hna' : noAbortItems rest = true := by
        simpa [noAbortItems] using hna
      have hne' : noStreamError rest = true := by
        simpa [noStreamError] using hne
      simp only [dispatchLoop, hab, Bool.false_eq_true, if_false]
      have hev : eventsOf (.ev e (.user reply) :: rest) = e :: eventsOf rest := by
        simp [eventsOf]
      rw [hev]
      by_cases ht : isTerminalStep e.step = true
      · simp only [ht, if_true, truncAtTerminal, handleEvent_forwarded]
      · have habd : (handleEvent exec s e (.user reply)).1.aborted = false := by
          rw [handleEvent_user_aborted]; exact hab
        have ih := dispatchLoop_forwarded_eq exec rest (handleEvent exec s e (.user reply)).1
          habd hna' hne'
        simp only [ht, Bool.false_eq_true, if_false, truncAtTerminal]
        rw [forwardedEvents_append, handleEvent_forwarded, ih]
        rfl

theorem countTerminalSignals_append (a b : List OrchCall) :
    countTerminalSignals (a ++ b) = countTerminalSignals a + countTerminalSignals b := by
  simp [countTerminalSignals, List.countP_append]

theorem countTerminalSignals_executeAndPostResult
    (exec : String → List (String × String) → ToolResult) (s : OrchState)
    (toolName : String) (data : List (String × String)) :
    countTerminalSignals (executeAndPostResult exec s toolName data) = 0 := by
  unfold executeAndPostResult
  cases lookupData data "request_id" with
  | none => rfl
  | some rid =>
    dsimp only
    split
    · rfl
    · split <;> simp [countTerminalSignals, isTerminalSignal]

/-- `handleEvent` with a user-resolved reply emits no terminal lifecycle signal. -/
theorem countTerminalSignals_handleEvent_user
    (exec : String → List (String × String) → ToolResult)
    (s : OrchState) (e : SSEEvent) (reply : String) :
    countTerminalSignals (handleEvent exec s e (.user reply)).2 = 0 := by
  unfold handleEvent
  cases hb : e.step == "ask" with
  | true =>
    simp only [hb, if_true]
    split <;> simp [countTerminalSignals, isTerminalSignal]
  | false =>
    simp only [hb, Bool.false_eq_true, if_false]
    split
    · rw [countTerminalSignals_append, countTerminalSignals_executeAndPostResult]
      simp [countTerminalSignals, isTerminalSignal]
    · simp [countTerminalSignals, isTerminalSignal]

/-- Without an abort, the dispatch loop itself emits no terminal lifecycle signal. -/
theorem dispatchLoop_signals_zero (exec : String → List (String × String) → ToolResult) :
    ∀ (items : List StreamItem) (s : OrchState), noAbortItems items = true →
    countTerminalSignals (dispatchLoop exec s items).calls = 0
  | [], _, _ => rfl
  | .abortSignal :: rest, s, hna => by simp [noAbortItems] at hna
  | .streamError msg :: rest, s, _ => rfl
  | .ev e res :: rest, s, hna => by
    cases res with
    | abortResolve => simp [noAbortItems] at hna
    | user reply =>
      have hna' : noAbortItems rest = true := by
        simpa [noAbortItems] using hna
      simp only [dispatchLoop]
      by_cases hab : s.aborted = true
      · simp [hab, countTerminalSignals]
      · have ih := dispatchLoop_signals_zero exec rest (handleEvent exec s e (.user reply)).1 hna'
        simp only [Bool.not_eq_true] at hab
        simp only [hab, Bool.false_eq_true, if_false]
        by_cases ht : isTerminalStep e.step = true
        · simp only [ht, if_true]
          exact countTerminalSignals_handleEvent_user exec s e reply
        · simp only [ht, Bool.false_eq_true, if_false]
          rw [countTerminalSignals_append, countTerminalSignals_handleEvent_user, ih]

/-- The forwarded events of a whole `startTask` run are exactly those of its
dispatch loop: the surrounding emits and the synthesized-error post are not
stream-event forwards. -/
theorem forwardedEvents_runStartTask (exec : String → List (String × String) → ToolResult)
    (params : ChatParams) (items : List StreamItem) :
    forwardedEvents (runStartTask exec params items).2 =
      forwardedEvents (dispatchLoop exec
        { projectId := params.project_id, taskId := params.task_id,
          aborted := false, pendingAgent := none, hasClient := true } items).calls := by
  unfold runStartTask
  dsimp only
  rw [forwardedEvents_append, forwardedEvents_append]
  cases (dispatchLoop exec
      { projectId := params.project_id, taskId := params.task_id,
        aborted := false, pendingAgent := none, hasClient := true } items).outcome with
  | normal => simp [forwardedEvents]
  | errored msg =>
    dsimp only
    rw [forwardedEvents_append]
    split <;> simp [forwardedEvents]

/-! ## Claims -/

/-- C1: for every byte sequence produced by the backend stream, parsing it
through `startChat` with any partition into chunks (including splits
mid-delimiter or mid-JSON) yields exactly the same ordered sequence of
protocol events as parsing the whole sequence delivered in one single read:
the buffer is split on the blank-line delimiter, complete frames are decoded
in order, the trailing incomplete fragment is retained, and any non-empty
remainder at stream end is decoded as a final frame.  (Stated for every frame
decoder `decode`, hence in particular for `parseSSEChunk`.) -/
theorem C1_chunk_boundary_invariance (decode : List Char → Option SSEEvent)
    (chunks : List (List Char)) :
    streamEvents decode chunks = streamEvents decode [chunks.flatten] := by
  unfold streamEvents
  rw [processChunks_eq chunks [] rfl, processChunks_eq [chunks.flatten] [] rfl]
  simp

/-- C4: if `abortTask` is invoked while a human-reply wait is pending, the
pending wait is resolved immediately with the empty string (modelled by the
`abortResolve` resolution, whose continuation is the `reply = ""` path of the
`ask` handler), the pending slot is cleared, the session is marked aborted,
and no human-reply control call is issued for that `ask` event. -/
theorem C4_abort_unblocks_pending_reply (exec : String → List (String × String) → ToolResult)
    (s : OrchState) (e : SSEEvent) (h : e.step = "ask") :
    (handleEvent exec s e .abortResolve).1.pendingAgent = none ∧
    (handleEvent exec s e .abortResolve).1.aborted = true ∧
    humanReplyCalls (handleEvent exec s e .abortResolve).2 = [] := by
  have hb : (e.step == "ask") = true := by simp [h]
  refine ⟨?_, ?_, ?_⟩
  · simp [handleEvent, hb]
  · simp [handleEvent, hb]
  · simp only [handleEvent, hb, if_true]
    unfold humanReplyCalls abortCalls
    split <;> simp

/-- C4 witness: a concrete aborted `ask` wait. -/
theorem C4_witness :
    (handleEvent execTrue ⟨"p1", "t1", false, some "a1", true⟩
        ⟨"ask", [("agent", "a1")]⟩ .abortResolve).1.pendingAgent = none ∧
    (handleEvent execTrue ⟨"p1", "t1", false, some "a1", true⟩
        ⟨"ask", [("agent", "a1")]⟩ .abortResolve).1.aborted = true ∧
    humanReplyCalls (handleEvent execTrue ⟨"p1", "t1", false, some "a1", true⟩
        ⟨"ask", [("agent", "a1")]⟩ .abortResolve).2 = [] :=
  C4_abort_unblocks_pending_reply execTrue ⟨"p1", "t1", false, some "a1", true⟩
    ⟨"ask", [("agent", "a1")]⟩ rfl

/-- C8: a delegated-execution event whose payload lacks a usable `request_id`
(missing or empty), or arriving with no client or an empty project identifier,
is dropped without side effects: no tool-executor operation runs and no
tool-result control call is issued. -/
theorem C8_drop_without_session_or_request_id
    (exec : String → List (String × String) → ToolResult) (s : OrchState)
    (toolName : String) (data : List (String × String))
    (h : lookupData data "request_id" = none ∨ lookupData data "request_id" = some ""
      ∨ s.hasClient = false ∨ s.projectId = "") :
    executeAndPostResult exec s toolName data = [] := by
  unfold executeAndPostResult
  rcases h with h | h | h | h
  · rw [h]
  · rw [h]
    dsimp only
    rw [if_pos (show (("" : String).isEmpty || !s.hasClient || s.projectId.isEmpty) = true
      from rfl)]
  · cases hl : lookupData data "request_id" with
    | none => rfl
    | some rid =>
      dsimp only
      rw [if_pos (show (rid.isEmpty || !s.hasClient || s.projectId.isEmpty) = true
        from by simp [h])]
  · cases hl : lookupData data "request_id" with
    | none => rfl
    | some rid =>
      dsimp only
      rw [if_pos (show (rid.isEmpty || !s.hasClient || s.projectId.isEmpty) = true
        from by
          have h1 : ("" : String).isEmpty = true := rfl
          simp [h, h1])]

/-- C8 witness: an `execute_read_file` event with an empty project identifier
(no active session) is dropped. -/
theorem C8_witness :
    executeAndPostResult execTrue ⟨"", "t1", false, none, true⟩
      "execute_read_file" [("request_id", "r2")] = [] :=
  C8_drop_without_session_or_request_id execTrue ⟨"", "t1", false, none, true⟩
    "execute_read_file" [("request_id", "r2")] (Or.inr (Or.inr (Or.inr rfl)))

/-- C9: in all terminal cases of `startTask` (completion, abort, and error
alike) the `finally` block clears the session's project and task identifiers
before returning, so the readiness predicate `isRunning` is false after every
task ends. -/
theorem C9_session_cleared_after_task (exec : String → List (String × String) → ToolResult)
    (params : ChatParams) (items : List StreamItem) :
    (runStartTask exec params items).1.projectId = "" ∧
    (runStartTask exec params items).1.taskId = "" ∧
    isRunning (runStartTask exec params items).1 = false := by
  refine ⟨rfl, rfl, ?_⟩
  show (!String.isEmpty "" && !(runStartTask exec params items).1.aborted) = false
  rfl

/-- C10: `buildEigentChatParams` always returns a `ChatParams` whose
`project_id` equals its `task_id`: both are the same single generated UUID, so
the "session identifier pair" is one identifier in both roles. -/
theorem C10_project_id_equals_task_id (uuid modelId wsDefault : String)
    (cfg : ApiConfiguration) (question : String) (images : Option (List String))
    (workspacePath : Option String) :
    (buildEigentChatParams uuid modelId wsDefault cfg question images workspacePath).project_id
      = (buildEigentChatParams uuid modelId wsDefault cfg question images
          workspacePath).task_id ∧
    (buildEigentChatParams uuid modelId wsDefault cfg question images workspacePath).project_id
      = uuid :=
  ⟨rfl, rfl⟩

/-- C2: the dispatch loop of `startTask` processes events strictly up to and
including the first event whose step is `end`, `error`, or `timeout`: the
events forwarded to the observer always form a prefix of the raw event
sequence truncated at its first terminal event (so no event after it is ever
forwarded, and since every dispatch happens inside `handleEvent` of a
forwarded event, none is dispatched either); when no abort and no stream
failure intervene, the forwarded sequence is exactly that truncation. -/
theorem C2_terminal_truncation (exec : String → List (String × String) → ToolResult)
    (params : ChatParams) (items : List StreamItem) :
    forwardedEvents (runStartTask exec params items).2 <+: truncAtTerminal (eventsOf items) ∧
    (noAbortItems items = true → noStreamError items = true →
      forwardedEvents (runStartTask exec params items).2 = truncAtTerminal (eventsOf items)) := by
  constructor
  · rw [forwardedEvents_runStartTask]
    exact dispatchLoop_forwarded_prefix exec items _
  · intro hna hne
    rw [forwardedEvents_runStartTask]
    exact dispatchLoop_forwarded_eq exec items _ rfl hna hne

/-- C2 witness: a concrete stream with an event after the `end` marker; the
forwarded events stop at `end`. -/
theorem C2_witness :
    noAbortItems
        [.ev ⟨"confirmed", []⟩ (.user "x"), .ev ⟨"end", []⟩ (.user ""),
          .ev ⟨"late", []⟩ (.user "")] = true ∧
    forwardedEvents (runStartTask execTrue paramsEx
        [.ev ⟨"confirmed", []⟩ (.user "x"), .ev ⟨"end", []⟩ (.user ""),
          .ev ⟨"late", []⟩ (.user "")]).2 =
      truncAtTerminal (eventsOf
        [.ev ⟨"confirmed", []⟩ (.user "x"), .ev ⟨"end", []⟩ (.user ""),
          .ev ⟨"late", []⟩ (.user "")]) :=
  ⟨rfl,
    (C2_terminal_truncation execTrue paramsEx
      [.ev ⟨"confirmed", []⟩ (.user "x"), .ev ⟨"end", []⟩ (.user ""),
        .ev ⟨"late", []⟩ (.user "")]).2 rfl rfl⟩

/-- C3 counterexample: the claim "a single task start never signals more than
one terminal state" is false on the code.  When `abortTask` is invoked during
a run (here: between events), `abortTask` itself emits `taskAborted`, and the
loop — broken by the aborted flag — still reaches the `emit("taskCompleted")`
after it, so the single `startTask` run signals two terminal states.  The
trace also shows that the abort case is signalled as `taskCompleted` by
`startTask` rather than only as an aborted state. -/
theorem C3_counterexample :
    (runStartTask execTrue paramsEx [.abortSignal]).2 =
      [.emitStarted, .callStopChat "p1", .emitAborted, .emitCompleted "t1"] ∧
    countTerminalSignals (runStartTask execTrue paramsEx [.abortSignal]).2 = 2 :=
  ⟨rfl, rfl⟩

/-- C3 (amended): when `abortTask` is not invoked during the run, each
`startTask` invocation signals exactly one terminal state: `taskCompleted`
(with the task identifier) when the loop exits without an exception, and
`taskAborted` when the stream raises — preceded by a synthesized error event
when the session was not aborted.  (When `abortTask` is invoked, it emits an
additional `taskAborted` itself, and the interrupted loop still emits
`taskCompleted`, as the counterexample shows.) -/
theorem C3_single_terminal_signal_without_abort
    (exec : String → List (String × String) → ToolResult) (params : ChatParams)
    (items : List StreamItem) (hna : noAbortItems items = true) :
    countTerminalSignals (runStartTask exec params items).2 = 1 := by
  unfold runStartTask
  dsimp only
  rw [countTerminalSignals_append, countTerminalSignals_append]
  rw [dispatchLoop_signals_zero exec items _ hna]
  cases (dispatchLoop exec
      { projectId := params.project_id, taskId := params.task_id,
        aborted := false, pendingAgent := none, hasClient := true } items).outcome with
  | normal => rfl
  | errored msg =>
    dsimp only
    rw [countTerminalSignals_append]
    split <;> rfl

/-- C3 witness: a run that ends with the `end` event signals exactly one
terminal state. -/
theorem C3_witness :
    noAbortItems [StreamItem.ev ⟨"end", []⟩ (.user "")] = true ∧
    countTerminalSignals
      (runStartTask execTrue paramsEx [StreamItem.ev ⟨"end", []⟩ (.user "")]).2 = 1 :=
  ⟨rfl, C3_single_terminal_signal_without_abort execTrue paramsEx
    [StreamItem.ev ⟨"end", []⟩ (.user "")] rfl⟩

/-- C5: every ToolExecutor operation is a total function returning a
well-formed `ToolResult` (the five Lean embeddings are total by construction,
for arbitrary paths, patterns, commands and oracle behaviour), and every
failure of an underlying filesystem/workspace/process operation is captured
into a result with `success := false` carrying the failure message in the
`error` field — for `executeTerminal`, the captured output (falling back to
the failure message) is returned as both `content` and `error`, exactly as in
the source. -/
theorem C5_executor_failure_capture (env : ExecEnv) (ws : String)
    (dW : ExecuteFileWriteData) (dR : ExecuteReadFileData) (dS : ExecuteSearchReplaceData)
    (dL dL2 : ExecuteListFilesData) (dT : ExecuteTerminalData) (m : String)
    (f : ExecaFailure) :
    (env.writeFile (resolvePath ws dW.path) dW.content = .error m →
      executeFileWrite env ws dW = (⟨false, none, some m⟩, [(resolvePath ws dW.path, dW.content)])) ∧
    (env.readFile (resolvePath ws dR.path) = .error m →
      executeReadFile env ws dR = (⟨false, none, some m⟩, [])) ∧
    (env.readFile (resolvePath ws dS.path) = .error m →
      executeSearchReplace env ws dS = (⟨false, none, some m⟩, [])) ∧
    (((if dL.pattern.isEmpty then "**/*" else dL.pattern).data.contains '*'
        || (if dL.pattern.isEmpty then "**/*" else dL.pattern).data.contains '?') = true →
      env.workspaceFolder = none →
      executeListFiles env ws dL = (⟨false, none, some "No workspace folder"⟩, [])) ∧
    (((if dL2.pattern.isEmpty then "**/*" else dL2.pattern).data.contains '*'
        || (if dL2.pattern.isEmpty then "**/*" else dL2.pattern).data.contains '?') = false →
      env.listFilesSvc (resolvePath ws (if dL2.pattern.isEmpty then "**/*" else dL2.pattern))
          = .error m →
      executeListFiles env ws dL2 = (⟨false, none, some m⟩, [])) ∧
    (env.execa dT.command (match dT.cwd with
        | some c => if c.isEmpty then ws else resolvePath ws c
        | none => ws) = .error f →
      executeTerminal env ws dT =
        (⟨false, some (f.all.getD (f.stdout.getD (f.stderr.getD f.message))),
          some (f.all.getD (f.stdout.getD (f.stderr.getD f.message)))⟩, [])) := by
  refine ⟨fun h => ?_, fun h => ?_, fun h => ?_, fun hg hw => ?_, fun hg hl => ?_, fun h => ?_⟩
  · unfold executeFileWrite
    dsimp only
    rw [h]
  · unfold executeReadFile
    dsimp only
    rw [h]
  · unfold executeSearchReplace
    dsimp only
    rw [h]
  · unfold executeListFiles
    dsimp only
    rw [hg, if_pos rfl, hw]
  · unfold executeListFiles
    dsimp only
    rw [hg, if_neg (by simp), hl]
  · unfold executeTerminal
    dsimp only
    rw [h]

/-- C5 witness: in an external world where every primitive fails with
`"boom"`, all five operations return `success := false` results carrying the
message. -/
theorem C5_witness :
    executeFileWrite envFail "/w" ⟨"r1", "a.txt", "x"⟩
      = (⟨false, none, some "boom"⟩, [("/w/a.txt", "x")]) ∧
    executeReadFile envFail "/w" ⟨"r2", "b.txt"⟩ = (⟨false, none, some "boom"⟩, []) ∧
    executeSearchReplace envFail "/w" ⟨"r3", "c.txt", "o", "n"⟩
      = (⟨false, none, some "boom"⟩, []) ∧
    executeListFiles envFail "/w" ⟨"r4", ""⟩
      = (⟨false, none, some "No workspace folder"⟩, []) ∧
    executeListFiles envFail "/w" ⟨"r5", "src"⟩ = (⟨false, none, some "boom"⟩, []) ∧
    executeTerminal envFail "/w" ⟨"r6", "ls", none⟩
      = (⟨false, some "boom", some "boom"⟩, []) := by
  have h := C5_executor_failure_capture envFail "/w" ⟨"r1", "a.txt", "x"⟩ ⟨"r2", "b.txt"⟩
    ⟨"r3", "c.txt", "o", "n"⟩ ⟨"r4", ""⟩ ⟨"r5", "src"⟩ ⟨"r6", "ls", none⟩ "boom"
    ⟨none, none, none, "boom"⟩
  exact ⟨h.1 rfl, h.2.1 rfl, h.2.2.1 rfl, h.2.2.2.1 rfl rfl, h.2.2.2.2.1 rfl rfl,
    h.2.2.2.2.2 rfl⟩

/-- C6: `executeSearchReplace` performs a literal (non-regex) replacement of
every occurrence of `old_string` (for a non-empty `old_string`, the split
parts contain no occurrence of it and joining them back with `old_string`
recovers the content, so joining with `new_string` replaces exactly the
occurrences); whenever the replaced content equals the original, it returns
`success := true` with the no-changes message and performs no write (empty
write trace); otherwise it writes the modified content and returns
`success := true` with the completed message. -/
theorem C6_search_replace_noop_purity (env : ExecEnv) (ws : String)
    (d d2 : ExecuteSearchReplaceData) (content content2 : String)
    (hread : env.readFile (resolvePath ws d.path) = .ok content)
    (hread2 : env.readFile (resolvePath ws d2.path) = .ok content2) :
    (d.old_string ≠ "" →
      joinWith d.old_string.data (jsSplit d.old_string.data content.data) = content.data ∧
      ∀ p ∈ jsSplit d.old_string.data content.data, occursIn d.old_string.data p = false) ∧
    (replaceAllJS d.old_string d.new_string content = content →
      executeSearchReplace env ws d =
        (⟨true, some "No changes needed (old_string not found)", none⟩, [])) ∧
    (replaceAllJS d2.old_string d2.new_string content2 ≠ content2 →
      env.writeFile (resolvePath ws d2.path)
          (replaceAllJS d2.old_string d2.new_string content2) = .ok () →
      executeSearchReplace env ws d2 =
        (⟨true, some "Search and replace completed", none⟩,
          [(resolvePath ws d2.path, replaceAllJS d2.old_string d2.new_string content2)])) := by
  refine ⟨fun hne => ?_, fun heq => ?_, fun hne2 hwr => ?_⟩
  · have hd : d.old_string.data ≠ [] := by
      intro hc
      apply hne
      have hmk : d.old_string = String.mk d.old_string.data := rfl
      rw [hmk, hc]
    have hspec := splitGo_spec d.old_string.data hd content.data
    rw [jsSplit, if_neg hd]
    exact ⟨hspec.1, hspec.2.1⟩
  · unfold executeSearchReplace
    dsimp only
    rw [hread]
    dsimp only
    rw [if_pos heq.symm]
  · unfold executeSearchReplace
    dsimp only
    rw [hread2]
    dsimp only
    rw [if_neg (fun hcc => hne2 hcc.symm), hwr]

/-- C6 witness: with file content `"abc"` and `old_string := "xyz"` the result
is a success with the no-changes message and an empty write trace; the
recovery and no-occurrence properties hold for the split; and with
`old_string := "b"` the modified content `"aXc"` is written. -/
theorem C6_witness :
    (joinWith ("xyz" : String).data (jsSplit ("xyz" : String).data ("abc" : String).data)
        = ("abc" : String).data) ∧
    executeSearchReplace envAbc "/w" ⟨"r", "f.txt", "xyz", "y"⟩ =
      (⟨true, some "No changes needed (old_string not found)", none⟩, []) ∧
    executeSearchReplace envAbc "/w" ⟨"r", "f.txt", "b", "X"⟩ =
      (⟨true, some "Search and replace completed", none⟩, [("/w/f.txt", "aXc")]) := by
  have h := C6_search_replace_noop_purity envAbc "/w" ⟨"r", "f.txt", "xyz", "y"⟩
    ⟨"r", "f.txt", "b", "X"⟩ "abc" "abc" rfl rfl
  refine ⟨(h.1 (by decide)).1, h.2.1 rfl, ?_⟩
  have h3 := h.2.2 (by decide) rfl
  simpa using h3

/-- C7 counterexample: the claim that every field of the `ChatParams`
descriptor is present in the serialized body is false — `toChatBody` omits
`file_save_path`, so a `ChatParams` with `file_save_path := some "/w"`
produces a body with no `file_save_path` entry. -/
theorem C7_counterexample :
    paramsEx.file_save_path = some "/w" ∧
    List.lookup "file_save_path" (toChatBody paramsEx) = none :=
  ⟨rfl, rfl⟩

/-- C7 (amended): `startChat` serializes the request body with exactly the
thirteen always-present `ChatParams`-derived fields (in source order), plus
`api_url` and `env_path` only when non-null — `file_save_path` is never
serialized; and if the response is not successful it fails immediately with a
transport error carrying the status code and the response body text, yielding
no events. -/
theorem C7_body_fields_and_transport_error (decode : List Char → Option SSEEvent)
    (resp : HttpResponse) (p : ChatParams) :
    ((toChatBody p).map Prod.fst =
      ["task_id", "project_id", "question", "email", "attaches", "model_platform",
        "model_type", "api_key", "language", "browser_port", "max_retries",
        "allow_local_system", "installed_mcp"]
      ++ (match p.api_url with | some _ => ["api_url"] | none => [])
      ++ (match p.env_path with | some _ => ["env_path"] | none => [])) ∧
    List.lookup "file_save_path" (toChatBody p) = none ∧
    (resp.ok = false →
      (startChatModel decode resp p).2 =
        .error ("Eigent startChat failed: " ++ toString resp.status ++ " "
          ++ resp.statusText ++ " - " ++ resp.bodyText)) := by
  refine ⟨?_, ?_, fun hok => ?_⟩
  · cases hu : p.api_url <;> cases he : p.env_path <;> simp [toChatBody, hu, he]
  · cases hu : p.api_url <;> cases he : p.env_path <;> simp [toChatBody, hu, he, List.lookup]
  · unfold startChatModel
    rw [hok]
    rfl

/-- C7 witness: a concrete failing response produces the transport error. -/
theorem C7_witness :
    (startChatModel (fun _ => none)
        ⟨false, 500, "Internal Server Error", "Server error", none⟩ paramsEx).2 =
      .error ("Eigent startChat failed: " ++ toString 500 ++ " "
        ++ "Internal Server Error" ++ " - " ++ "Server error") :=
  (C7_body_fields_and_transport_error (fun _ => none)
    ⟨false, 500, "Internal Server Error", "Server error", none⟩ paramsEx).2.2 rfl

end Ascende
